import Mathlib

set_option maxRecDepth 100000
set_option maxHeartbeats 1000000

/-
  Shallow embedding of the simulation engine of the "HIV Memory T-cell Game"
  (src/src/App.jsx, the revision with virion type tags, 1000 cells,
  per-cell trickle timers and ART-gated infection/clearance/death rules).

  Modelling conventions:
  * JS floating-point coordinates and velocities are idealized as real numbers;
    raw Math.random() draws are modelled as rational inputs supplied by an
    explicit oracle (one field per call site), cast into the reals where the
    code does arithmetic on them.
  * `Math.floor(Math.random() * len)`, which produces an arbitrary index in
    [0, len), is modelled as `pick % len` for an arbitrary natural `pick`
    supplied by the oracle: the two have exactly the same set of outcomes.
  * Millisecond timers and accumulators only ever hold multiples of the tick
    length and are modelled as naturals.
  * The React `running` flag only gates whether the interval timer fires at
    all; the per-tick update itself never reads it, so the state model keeps
    the remaining fields of the component.
-/

namespace Trojan

inductive Status where
  | HEALTHY
  | LATENT
  | ACTIVE
  | DEAD
deriving DecidableEq

inductive Virus where
  | HIV
  | PATHOGEN
deriving DecidableEq

/-- An agent (memory T-cell): position, radius, state, age-in-state timer and
per-cell shedding (trickle) timer, both in milliseconds.  The JS objects start
without the `ageMs`/`relMs` fields and every read is `?? 0`, so the model makes
them total with initial value `0`. -/
structure Cell where
  x : ℝ
  y : ℝ
  r : ℝ
  s : Status
  ageMs : ℕ
  relMs : ℕ

/-- A free virus particle: position, velocity and species tag. -/
structure Virion where
  x : ℝ
  y : ℝ
  vx : ℝ
  vy : ℝ
  type : Virus

def cDefault : Cell :=
  { x := 0, y := 0, r := 0, s := Status.HEALTHY, ageMs := 0, relMs := 0 }

instance : Inhabited Cell := ⟨cDefault⟩

def TICK_MS : ℕ := 320
def DEATH_DELAY_MS : ℕ := 30000

/-- Source constant `DEATH_CHANCE_PER_TICK_AFTER_DELAY = 0.02`, written as the
reduced fraction 1/50 so that comparisons against it evaluate by `decide`
(see `DEATH_CHANCE_PER_TICK_AFTER_DELAY_eq`). -/
def DEATH_CHANCE_PER_TICK_AFTER_DELAY : ℚ := ⟨1, 50, by norm_num, by norm_num⟩

theorem DEATH_CHANCE_PER_TICK_AFTER_DELAY_eq :
    DEATH_CHANCE_PER_TICK_AFTER_DELAY = 0.02 := by
  rw [DEATH_CHANCE_PER_TICK_AFTER_DELAY, Rat.mk'_eq_divInt]
  norm_num [Rat.divInt_eq_div]

def worldW : ℝ := 960
def worldH : ℝ := 600
def cellCount : ℕ := 1000

/-- One bundle of raw `Math.random()` draws used to spawn a single virion:
the index draw selecting a bias center, the two position draws and the two
velocity draws. -/
structure Draw where
  pick : ℕ
  ux : ℚ
  uy : ℚ
  dvx : ℚ
  dvy : ℚ

/-- The random draws one tick consumes, indexed per call site. -/
structure Oracle where
  /-- infection: selection draw for firing step `s`, pick `k`. -/
  infPick : ℕ → ℕ → ℕ
  /-- death roll for the cell at index `i` (the raw draw compared to 0.02). -/
  deathDraw : ℕ → ℚ
  /-- trickle spawn draws for cell `i`, emitted particle `j`. -/
  trickleDraw : ℕ → ℕ → Draw
  /-- death-burst spawn draws for site `si`, particle `j`. -/
  burstDraw : ℕ → ℕ → Draw
  /-- velocity perturbation draws for virion `i` in `moveVirions`. -/
  driftDraw : ℕ → ℚ × ℚ

/-- Indexed map starting at index `k`; structural-recursion stand-in for the
JS pattern of mapping a callback that also records per-index side output. -/
def mapIdxFrom (f : ℕ → α → β) : ℕ → List α → List β
  | _, [] => []
  | k, a :: l => f k a :: mapIdxFrom f (k + 1) l

/-- Source `clamp(n, lo, hi) = Math.max(lo, Math.min(hi, n))`. -/
noncomputable def clamp (n lo hi : ℝ) : ℝ := max lo (min hi n)

/-- Source `spawnVirions(n, w, h, centerBias, centers, type)`: `n` new virions,
either biased around one of the given centers (offset up to ±10 on each axis)
or uniform in the inset world rectangle, with uniform small velocities. -/
noncomputable def spawnVirions (n : ℕ) (w h : ℝ) (centerBias : Bool)
    (centers : List (ℝ × ℝ)) (ty : Virus) (d : ℕ → Draw) : List Virion :=
  (List.range n).map (fun i =>
    let dr := d i
    let p : ℝ × ℝ :=
      if centerBias = true ∧ centers.isEmpty = false then
        let c := centers.getD (dr.pick % centers.length) (0, 0)
        (c.1 + ((dr.ux : ℝ) - 0.5) * 20, c.2 + ((dr.uy : ℝ) - 0.5) * 20)
      else
        (10 + (dr.ux : ℝ) * (w - 20), 10 + (dr.uy : ℝ) * (h - 20))
    { x := p.1, y := p.2, vx := ((dr.dvx : ℝ) - 0.5) * 1.2,
      vy := ((dr.dvy : ℝ) - 0.5) * 1.2, type := ty })

/-- One-axis wall treatment in `moveVirions`: position below the low inset is
clamped there and the velocity is set to its absolute value; above the high
inset it is clamped there and the velocity is set to minus its absolute
value. -/
noncomputable def bounce1 (lo hi pos vel : ℝ) : ℝ × ℝ :=
  if pos < lo then (lo, |vel|)
  else if pos > hi then (hi, -|vel|)
  else (pos, vel)

/-- Source `moveVirions` loop body for one virion: advance position, bounce
off the four walls, add a small random velocity perturbation, clamp speed. -/
noncomputable def moveVirion (w h : ℝ) (d : ℚ × ℚ) (v : Virion) : Virion :=
  let bx := bounce1 2 (w - 2) (v.x + v.vx) v.vx
  let by' := bounce1 2 (h - 2) (v.y + v.vy) v.vy
  let vx2 := bx.2 + ((d.1 : ℝ) - 0.5) * 0.1
  let vy2 := by'.2 + ((d.2 : ℝ) - 0.5) * 0.1
  let speed := Real.sqrt (vx2 ^ 2 + vy2 ^ 2)
  let vc : ℝ × ℝ :=
    if speed > 1.6 then (vx2 / speed * 1.6, vy2 / speed * 1.6) else (vx2, vy2)
  { v with x := bx.1, y := by'.1, vx := vc.1, vy := vc.2 }

/-- Source `moveVirions(vs, w, h)`. -/
noncomputable def moveVirions (vs : List Virion) (w h : ℝ)
    (d : ℕ → ℚ × ℚ) : List Virion :=
  mapIdxFrom (fun i v => moveVirion w h (d i) v) 0 vs

/-- Source `countVirionsByType(vs, type)`. -/
def countVirionsByType (vs : List Virion) (ty : Virus) : ℕ :=
  vs.countP (fun v => decide (v.type = ty))

def countStatus (st : Status) (cs : List Cell) : ℕ :=
  cs.countP (fun c => decide (c.s = st))

/-- Source `placeCells(n, w, h)`: jittered grid for `n > 200` (exactly `n`
cells by construction), sparse uniform placement otherwise (also exactly `n`
cells in this revision — the loop pushes unconditionally). -/
noncomputable def placeCells (n : ℕ) (w h : ℝ) (jit : ℕ → ℚ × ℚ) : List Cell :=
  if 200 < n then
    let cols := ⌈Real.sqrt ((n : ℝ) * w / h)⌉₊
    let rows := ⌈(n : ℝ) / (cols : ℝ)⌉₊
    let cellW := w / (cols : ℝ)
    let cellH := h / (rows : ℝ)
    let r : ℝ := max 3 (⌊min cellW cellH * 0.35⌋ : ℤ)
    (List.range n).map (fun i =>
      let col := i % cols
      let row := i / cols
      let jitterX := ((jit i).1 : ℝ) - 0.5
      let jitterY := ((jit i).2 : ℝ) - 0.5
      let x := ((col : ℝ) + 0.5) * cellW + jitterX * cellW * 0.4
      let y := ((row : ℝ) + 0.5) * cellH + jitterY * cellH * 0.4
      { x := clamp x 6 (w - 6), y := clamp y 6 (h - 6), r := r,
        s := Status.HEALTHY, ageMs := 0, relMs := 0 })
  else
    (List.range n).map (fun i =>
      { x := 10 + ((jit i).1 : ℝ) * (w - 20), y := 10 + ((jit i).2 : ℝ) * (h - 20),
        r := 4, s := Status.HEALTHY, ageMs := 0, relMs := 0 })

/-- The simulation state owned by the component. -/
structure SimState where
  cells : List Cell
  virions : List Virion
  artOn : Bool
  elapsedMs : ℕ
  infectAccum : ℕ
  trickleAccum : ℕ
  clearAccum : ℕ

def activeReset (c : Cell) : Cell :=
  { c with s := Status.ACTIVE, ageMs := 0, relMs := 0 }

/-- The `for (k < toInfect)` splice loop of one infection firing: repeatedly
draw an index into the remaining healthy-index list, remove it and set that
cell to ACTIVE with both timers reset. -/
def infectGo (pick : ℕ → ℕ) : ℕ → List ℕ → List Cell → List Cell
  | 0, _, cs => cs
  | k + 1, hIdx, cs =>
    if hIdx = [] then cs
    else
      let j := pick k % hIdx.length
      let idx := hIdx.getD j 0
      let cs' := cs.set idx (activeReset (cs.getD idx cDefault))
      infectGo pick k (hIdx.eraseIdx j) cs'

/-- One firing of the infection rule (the body of `setCells` inside the
`for (s < steps)` loop): collect the indices of HEALTHY cells, compute
`toInfect = min(#healthy, 1 + floor(hivCount / 100))`, infect that many. -/
def infectOnce (pick : ℕ → ℕ) (hivCount : ℕ) (cs : List Cell) : List Cell :=
  let healthyIdx := (List.range cs.length).filter
    (fun i => decide ((cs.getD i cDefault).s = Status.HEALTHY))
  if healthyIdx = [] then cs
  else
    let toInfect := min healthyIdx.length (1 + hivCount / 100)
    infectGo pick toInfect healthyIdx cs

/-- The per-cell body of the trickle / aging / death map (step 3 of the tick):
returns the updated cell, the HIV virions this cell pushes onto `hivAdds`,
and the death site if the cell dies this tick. -/
noncomputable def stepCell (artOn : Bool) (o : Oracle) (i : ℕ) (c : Cell) :
    Cell × List Virion × Option (ℝ × ℝ) :=
  if c.s = Status.ACTIVE ∨ c.s = Status.LATENT then
    let rel := c.relMs + TICK_MS
    let releases := rel / 10000
    let adds := ((List.range releases).map (fun j =>
      spawnVirions 5 worldW worldH true [(c.x, c.y)] Virus.HIV
        (fun p => o.trickleDraw i (j * 5 + p)))).flatten
    let relRem := rel - releases * 10000
    if c.s = Status.ACTIVE then
      let age := c.ageMs + TICK_MS
      if artOn = false ∧ DEATH_DELAY_MS ≤ age ∧
          o.deathDraw i < DEATH_CHANCE_PER_TICK_AFTER_DELAY then
        ({ c with s := Status.DEAD, ageMs := 0, relMs := 0 }, adds, some (c.x, c.y))
      else
        ({ c with ageMs := age, relMs := relRem }, adds, none)
    else
      ({ c with relMs := relRem }, adds, none)
  else (c, [], none)

/-- Step 4 of the tick: 50 HIV virions per death site, biased at the site. -/
noncomputable def deathBurst (o : Oracle) (sites : List (ℝ × ℝ)) : List Virion :=
  ((List.range sites.length).map (fun si =>
    spawnVirions 50 worldW worldH true [sites.getD si (0, 0)] Virus.HIV
      (o.burstDraw si))).flatten

/-- Number of infection firings in one tick (step 2 of the callback): the
rule is gated on ART being OFF, and fires `floor(accumulator / 2000)` times
once the incremented accumulator reaches 2000. -/
def fireSteps (s : SimState) : ℕ :=
  if s.artOn = false ∧ 2000 ≤ s.infectAccum + TICK_MS
  then (s.infectAccum + TICK_MS) / 2000 else 0

/-- Step 2 of the callback: the sequence of infection firings of one tick,
each drawing its infection pressure from the pre-tick HIV count. -/
def infectPhase (o : Oracle) (s : SimState) : List Cell :=
  (List.range (fireSteps s)).foldl
    (fun cs k => infectOnce (o.infPick k) (countVirionsByType s.virions Virus.HIV) cs)
    s.cells

/-- Step 3 of the callback: the per-cell map, with the index available so each
cell draws its own random numbers. -/
noncomputable def tickResults (o : Oracle) (s : SimState) :
    List (Cell × List Virion × Option (ℝ × ℝ)) :=
  mapIdxFrom (fun i c => stepCell s.artOn o i c) 0 (infectPhase o s)

/-- Death sites collected by the per-cell map. -/
noncomputable def tickDeathSites (o : Oracle) (s : SimState) : List (ℝ × ℝ) :=
  (tickResults o s).filterMap (fun r => r.2.2)

/-- The `hivAdds` array after steps 3 and 4: trickle emissions in cell order,
then the death bursts (the latter only when ART is OFF). -/
noncomputable def tickHivAdds (o : Oracle) (s : SimState) : List Virion :=
  ((tickResults o s).map (fun r => r.2.1)).flatten ++
    (if s.artOn = false ∧ (tickDeathSites o s).isEmpty = false
     then deathBurst o (tickDeathSites o s) else [])

/-- Number of clearance firings in one tick (step 5): gated on ART being ON. -/
def clearSecs (s : SimState) : ℕ :=
  if s.artOn = true ∧ 1000 ≤ s.clearAccum + TICK_MS
  then (s.clearAccum + TICK_MS) / 1000 else 0

/-- HIV particles removed by clearance this tick: about 5% of the pre-tick
HIV count (at least 1) per elapsed second. -/
def hivRemove (s : SimState) : ℕ :=
  if clearSecs s ≠ 0
  then max 1 (countVirionsByType s.virions Virus.HIV * 5 / 100) * clearSecs s
  else 0

/-- The moved HIV sub-population after clearance: the partitioned HIV list
with the last `hivRemove` entries dropped (`slice(0, keep)`), clearance being
a no-op when nothing fires or the list is empty. -/
noncomputable def tickHivKept (o : Oracle) (s : SimState) : List Virion :=
  let hivV := (moveVirions s.virions worldW worldH o.driftDraw).filter
    (fun v => decide (v.type = Virus.HIV))
  if 0 < hivRemove s ∧ 0 < hivV.length then hivV.take (hivV.length - hivRemove s)
  else hivV

/-- One firing of the main `setInterval` callback.  The `virions` identifier
captured by the callback holds the pre-tick particle list, so both the
infection pressure and the clearance amount are computed from it. -/
noncomputable def tick (o : Oracle) (s : SimState) : SimState :=
  let movedVs := moveVirions s.virions worldW worldH o.driftDraw
  let cells2 := (tickResults o s).map (fun r => r.1)
  let otherV := movedVs.filter (fun v => decide (v.type ≠ Virus.HIV))
  let hivFinal := if (tickHivAdds o s).isEmpty = false
    then tickHivKept o s ++ tickHivAdds o s else tickHivKept o s
  { cells := cells2
    virions := hivFinal ++ otherV
    artOn := s.artOn
    elapsedMs := s.elapsedMs + TICK_MS
    infectAccum := s.infectAccum + TICK_MS - fireSteps s * 2000
    trickleAccum := s.trickleAccum + TICK_MS
    clearAccum := s.clearAccum + TICK_MS - clearSecs s * 1000 }

/-- The ART button plus the `useEffect` on `[artOn]`: when the toggle lands on
ON, every ACTIVE cell instantly becomes LATENT with its age timer reset. -/
def toggleArt (s : SimState) : SimState :=
  let a := !s.artOn
  { s with
    artOn := a
    cells :=
      (if a then
        s.cells.map (fun c =>
          if c.s = Status.ACTIVE then { c with s := Status.LATENT, ageMs := 0 } else c)
      else s.cells) }

/-- Source `flushFreeVirus`: drop the HIV particles, keep other species. -/
def flushFreeVirus (s : SimState) : SimState :=
  { s with virions := s.virions.filter (fun v => decide (v.type ≠ Virus.HIV)) }

/-- Source `addVirions(n)`: uniform-spawn `n` fresh HIV particles. -/
noncomputable def addVirions (n : ℕ) (d : ℕ → Draw) (s : SimState) : SimState :=
  { s with virions := s.virions ++ spawnVirions n worldW worldH false [] Virus.HIV d }

/-- Source `introducePathogen`: spawn 50 PATHOGEN particles biased at the
cells, and reactivate every LATENT cell to ACTIVE with its age timer reset. -/
noncomputable def introducePathogen (d : ℕ → Draw) (s : SimState) : SimState :=
  { s with
    virions := s.virions ++ spawnVirions 50 worldW worldH true
      (s.cells.map (fun c => (c.x, c.y))) Virus.PATHOGEN d,
    cells := s.cells.map (fun c =>
      if c.s = Status.LATENT then { c with s := Status.ACTIVE, ageMs := 0 } else c) }

/-- The initial state (also what `reset` restores): 1000 freshly placed
HEALTHY cells, 100 uniform HIV virions, ART off, all clocks zero. -/
noncomputable def initState (jit : ℕ → ℚ × ℚ) (d : ℕ → Draw) : SimState :=
  { cells := placeCells cellCount worldW worldH jit
    virions := spawnVirions 100 worldW worldH false [] Virus.HIV d
    artOn := false
    elapsedMs := 0
    infectAccum := 0
    trickleAccum := 0
    clearAccum := 0 }

/-- Source `reset`. -/
noncomputable def reset (jit : ℕ → ℚ × ℚ) (d : ℕ → Draw) (_ : SimState) : SimState :=
  initState jit d

/-- The commands the UI can interleave with ticks (reset is kept separate:
every claim that quantifies over interventions explicitly exempts it). -/
inductive Cmd where
  | tick (o : Oracle)
  | toggleArt
  | flush
  | boost (n : ℕ) (d : ℕ → Draw)
  | pathogen (d : ℕ → Draw)

noncomputable def stepCmd : Cmd → SimState → SimState
  | Cmd.tick o, s => tick o s
  | Cmd.toggleArt, s => toggleArt s
  | Cmd.flush, s => flushFreeVirus s
  | Cmd.boost n d, s => addVirions n d s
  | Cmd.pathogen d, s => introducePathogen d s

noncomputable def runCmds (cmds : List Cmd) (s : SimState) : SimState :=
  cmds.foldl (fun st c => stepCmd c st) s

/-- A run consisting only of ticks (the claim about therapy-ON runs ranges
over tick sequences, each tick with its own random draws). -/
noncomputable def runTicks (os : List Oracle) (s : SimState) : SimState :=
  os.foldl (fun st o => tick o st) s

/-- Draws that a real `Math.random()` can produce lie in the unit interval. -/
def DrawOK (dr : Draw) : Prop :=
  0 ≤ dr.ux ∧ dr.ux ≤ 1 ∧ 0 ≤ dr.uy ∧ dr.uy ≤ 1

def zeroDraw : Draw := ⟨0, 0, 0, 0, 0⟩

/-- A concrete oracle whose draws are all zero (death rolls succeed). -/
def zeroOracle : Oracle :=
  ⟨fun _ _ => 0, fun _ => 0, fun _ _ => zeroDraw, fun _ _ => zeroDraw, fun _ => (0, 0)⟩

def healthyCell : Cell := cDefault

def hivVirion : Virion := ⟨0, 0, 0, 0, Virus.HIV⟩

def pathVirion : Virion := ⟨0, 0, 0, 0, Virus.PATHOGEN⟩

def vDefault : Virion := hivVirion

/-- Convenience constructor for concrete test states. -/
def mkState (cs : List Cell) (vs : List Virion) (art : Bool)
    (inf cl : ℕ) : SimState :=
  { cells := cs, virions := vs, artOn := art, elapsedMs := 0,
    infectAccum := inf, trickleAccum := 0, clearAccum := cl }

/-- Spec scenario state: population 1000 (all healthy), 100 HIV particles,
therapy OFF, infection accumulator one tick away from firing exactly once. -/
def c3ScenarioState : SimState :=
  mkState (List.replicate 1000 healthyCell) (List.replicate 100 hivVirion)
    false 1680 0

/-- Mixed-species state: 60 HIV + 50 PATHOGEN particles (110 free particles
in total), two healthy cells, therapy OFF, infection about to fire once. -/
def c3MixState : SimState :=
  mkState [healthyCell, healthyCell]
    (List.replicate 60 hivVirion ++ List.replicate 50 pathVirion) false 1680 0

/-- ART ON with the infection accumulator about to cross its period. -/
def c4GateState : SimState := mkState [] [] true 1900 0

/-- ART ON, one ACTIVE cell past the death delay (reachable by introducing a
pathogen while ART is on and letting the reactivated cell age). -/
def c5ArtOnState : SimState :=
  mkState [{ cDefault with s := Status.ACTIVE, ageMs := 30000 }] [] true 0 0

/-- ART OFF, one ACTIVE cell past the death delay whose shedding timer is
about to cross its period (remainder 20) in the same tick in which it dies. -/
def c6DieState : SimState :=
  mkState [{ cDefault with s := Status.ACTIVE, ageMs := 30000, relMs := 9700 }]
    [] false 0 0

/-- A LATENT cell whose shedding timer crosses the period this tick. -/
def c6LatentCell : Cell := { cDefault with s := Status.LATENT, relMs := 9900 }

/-- Therapy OFF with one ACTIVE cell, for the toggle-edge witness. -/
def c2OffState : SimState :=
  mkState [{ cDefault with s := Status.ACTIVE, ageMs := 640, relMs := 320 }]
    [] false 0 0

/-- Therapy ON with one ACTIVE and one LATENT cell, for the therapy-ON run
witness. -/
def c7OnState : SimState :=
  mkState [{ cDefault with s := Status.ACTIVE }, { cDefault with s := Status.LATENT }]
    [] true 0 0

/-- A state with a DEAD cell, for the absorbing-state witness. -/
def c8DeadState : SimState :=
  mkState [{ cDefault with s := Status.DEAD }, healthyCell] [] false 0 0

/-- A virion just outside the low-x wall, moving rightwards (away from the
wall it violates): the wall code keeps its velocity sign unchanged. -/
noncomputable def c9Virion : Virion :=
  { x := 0, y := 100, vx := 1/2, vy := 0, type := Virus.HIV }

section ListLemmas

variable {α : Type*} {β : Type*}

theorem length_mapIdxFrom (f : ℕ → α → β) (k : ℕ) (l : List α) :
    (mapIdxFrom f k l).length = l.length := by
  induction l generalizing k with
  | nil => rfl
  | cons a l ih => simp [mapIdxFrom, ih]

theorem getElem?_mapIdxFrom (f : ℕ → α → β) (k i : ℕ) (l : List α) :
    (mapIdxFrom f k l)[i]? = (l[i]?).map (f (k + i)) := by
  induction l generalizing k i with
  | nil => simp only [mapIdxFrom]; simp
  | cons a l ih =>
    cases i with
    | zero => simp only [mapIdxFrom]; simp
    | succ j =>
      have hkj : k + 1 + j = k + (j + 1) := by omega
      simp only [mapIdxFrom, List.getElem?_cons_succ]
      rw [ih (k + 1) j, hkj]

theorem mem_mapIdxFrom {f : ℕ → α → β} {k : ℕ} {l : List α} {b : β}
    (h : b ∈ mapIdxFrom f k l) : ∃ i a, a ∈ l ∧ b = f i a := by
  induction l generalizing k with
  | nil => simp [mapIdxFrom] at h
  | cons a l ih =>
    simp only [mapIdxFrom, List.mem_cons] at h
    rcases h with h | h
    · exact ⟨k, a, List.mem_cons_self .., h⟩
    · rcases ih h with ⟨i, a', ha, hb⟩
      exact ⟨i, a', List.mem_cons_of_mem _ ha, hb⟩

theorem countP_mapIdxFrom (p : α → Bool) (f : ℕ → α → α) (k : ℕ) (l : List α)
    (h : ∀ i a, l[i]? = some a → p (f (k + i) a) = p a) :
    (mapIdxFrom f k l).countP p = l.countP p := by
  induction l generalizing k with
  | nil => rfl
  | cons a l ih =>
    have h0 : p (f k a) = p a := by simpa using h 0 a (by simp)
    have ht : ∀ i a', l[i]? = some a' → p (f (k + 1 + i) a') = p a' := by
      intro i a' hi
      have hkj : k + 1 + i = k + (i + 1) := by omega
      rw [hkj]
      exact h (i + 1) a' (by simpa using hi)
    simp only [mapIdxFrom, List.countP_cons, ih (k + 1) ht, h0]

theorem length_flatten_of_const {l : List α} {g : α → List β} {m : ℕ}
    (h : ∀ a ∈ l, (g a).length = m) :
    ((l.map g).flatten).length = m * l.length := by
  induction l with
  | nil => simp
  | cons a l ih =>
    have ha := h a (List.mem_cons_self ..)
    have ht := ih (fun a ha' => h a (List.mem_cons_of_mem _ ha'))
    simp [ha, ht, Nat.mul_succ, Nat.add_comm]

theorem getD_set_ne (l : List α) (i j : ℕ) (a d : α) (h : i ≠ j) :
    (l.set i a).getD j d = l.getD j d := by
  simp [List.getD_eq_getElem?_getD, List.getElem?_set_ne h]

theorem getD_set_self (l : List α) (i : ℕ) (a d : α) (h : i < l.length) :
    (l.set i a).getD i d = a := by
  simp [List.getD_eq_getElem?_getD, List.getElem?_set_self h]

theorem getD_mem (l : List α) (i : ℕ) (d : α) (h : i < l.length) :
    l.getD i d ∈ l := by
  rw [List.getD_eq_getElem l d h]
  exact List.getElem_mem h

theorem nodup_getD_not_mem_eraseIdx :
    ∀ (l : List ℕ) (j : ℕ), j < l.length → l.Nodup → l.getD j 0 ∉ l.eraseIdx j
  | [], j, hj, _ => by simp at hj
  | a :: l, 0, _, hnd => by
    simpa using (List.nodup_cons.mp hnd).1
  | a :: l, j + 1, hj, hnd => by
    rcases List.nodup_cons.mp hnd with ⟨hal, hl⟩
    have hj' : j < l.length := by simpa using hj
    have hhead : l.getD j 0 ≠ a := by
      intro hEq
      exact hal (hEq ▸ getD_mem l j 0 hj')
    have htail := nodup_getD_not_mem_eraseIdx l j hj' hl
    simp only [List.eraseIdx_cons_succ, List.getD_cons_succ, List.mem_cons]
    rintro (h | h)
    · exact hhead h
    · exact htail h

end ListLemmas

theorem countStatus_cons (st : Status) (c : Cell) (cs : List Cell) :
    countStatus st (c :: cs) =
      countStatus st cs + if c.s = st then 1 else 0 := by
  simp [countStatus, List.countP_cons]

theorem countStatus_sum (cs : List Cell) :
    countStatus Status.HEALTHY cs + countStatus Status.LATENT cs +
      countStatus Status.ACTIVE cs + countStatus Status.DEAD cs = cs.length := by
  induction cs with
  | nil => rfl
  | cons c cs ih =>
    rcases hc : c.s <;>
      simp [countStatus_cons, hc] <;> omega

theorem length_spawnVirions (n : ℕ) (w h : ℝ) (bias : Bool)
    (centers : List (ℝ × ℝ)) (ty : Virus) (d : ℕ → Draw) :
    (spawnVirions n w h bias centers ty d).length = n := by
  simp [spawnVirions]

theorem type_of_mem_spawnVirions {n : ℕ} {w h : ℝ} {bias : Bool}
    {centers : List (ℝ × ℝ)} {ty : Virus} {d : ℕ → Draw} {v : Virion}
    (hv : v ∈ spawnVirions n w h bias centers ty d) : v.type = ty := by
  simp only [spawnVirions, List.mem_map] at hv
  rcases hv with ⟨i, _, rfl⟩
  rfl

theorem bias_of_mem_spawnVirions {n : ℕ} {w h : ℝ}
    {centers : List (ℝ × ℝ)} {ty : Virus} {d : ℕ → Draw} {v : Virion}
    (hv : v ∈ spawnVirions n w h true centers ty d)
    (hc : centers ≠ []) (hd : ∀ i, DrawOK (d i)) :
    ∃ c ∈ centers, |v.x - c.1| ≤ 10 ∧ |v.y - c.2| ≤ 10 := by
  simp only [spawnVirions, List.mem_map] at hv
  rcases hv with ⟨i, -, rfl⟩
  have hce : centers.isEmpty = false := by
    simpa [List.isEmpty_iff] using hc
  have hlen : 0 < centers.length := List.length_pos.mpr hc
  have hmod : (d i).pick % centers.length < centers.length := Nat.mod_lt _ hlen
  refine ⟨centers.getD ((d i).pick % centers.length) (0, 0),
    getD_mem _ _ _ hmod, ?_⟩
  rcases hd i with ⟨hx0, hx1, hy0, hy1⟩
  have hx0' : (0 : ℝ) ≤ ((d i).ux : ℝ) := by exact_mod_cast hx0
  have hx1' : ((d i).ux : ℝ) ≤ 1 := by exact_mod_cast hx1
  have hy0' : (0 : ℝ) ≤ ((d i).uy : ℝ) := by exact_mod_cast hy0
  have hy1' : ((d i).uy : ℝ) ≤ 1 := by exact_mod_cast hy1
  simp only [hce, if_pos, and_true, if_true]
  constructor <;>
    · rw [abs_le]
      constructor <;> [nlinarith; nlinarith]

theorem moveVirion_type (w h : ℝ) (d : ℚ × ℚ) (v : Virion) :
    (moveVirion w h d v).type = v.type := rfl

theorem moveVirion_x (w h : ℝ) (d : ℚ × ℚ) (v : Virion) :
    (moveVirion w h d v).x = (bounce1 2 (w - 2) (v.x + v.vx) v.vx).1 := rfl

theorem moveVirion_y (w h : ℝ) (d : ℚ × ℚ) (v : Virion) :
    (moveVirion w h d v).y = (bounce1 2 (h - 2) (v.y + v.vy) v.vy).1 := rfl

theorem bounce1_fst_bounds (lo hi pos vel : ℝ) (hlohi : lo ≤ hi) :
    lo ≤ (bounce1 lo hi pos vel).1 ∧ (bounce1 lo hi pos vel).1 ≤ hi := by
  unfold bounce1
  split_ifs with h1 h2
  · exact ⟨le_refl lo, hlohi⟩
  · exact ⟨hlohi, le_refl hi⟩
  · push_neg at h1 h2
    exact ⟨h1, h2⟩

theorem bounce1_low (lo hi pos vel : ℝ) (h : pos < lo) :
    bounce1 lo hi pos vel = (lo, |vel|) := by
  unfold bounce1
  rw [if_pos h]

theorem bounce1_high (lo hi pos vel : ℝ) (hlohi : lo ≤ hi) (h : hi < pos) :
    bounce1 lo hi pos vel = (hi, -|vel|) := by
  unfold bounce1
  rw [if_neg (by linarith), if_pos h]

theorem length_moveVirions (vs : List Virion) (w h : ℝ) (d : ℕ → ℚ × ℚ) :
    (moveVirions vs w h d).length = vs.length :=
  length_mapIdxFrom _ _ _

theorem length_placeCells (n : ℕ) (w h : ℝ) (jit : ℕ → ℚ × ℚ) :
    (placeCells n w h jit).length = n := by
  unfold placeCells
  split_ifs <;> simp

theorem status_of_mem_placeCells {n : ℕ} {w h : ℝ} {jit : ℕ → ℚ × ℚ} {c : Cell}
    (hcmem : c ∈ placeCells n w h jit) : c.s = Status.HEALTHY := by
  unfold placeCells at hcmem
  split_ifs at hcmem <;>
    · simp only [List.mem_map] at hcmem
      rcases hcmem with ⟨i, -, rfl⟩
      rfl

theorem countStatus_set_activeReset (cs : List Cell) (idx : ℕ)
    (hlt : idx < cs.length) (hh : (cs.getD idx cDefault).s = Status.HEALTHY) :
    countStatus Status.HEALTHY
        (cs.set idx (activeReset (cs.getD idx cDefault))) + 1 =
      countStatus Status.HEALTHY cs ∧
    countStatus Status.ACTIVE (cs.set idx (activeReset (cs.getD idx cDefault))) =
      countStatus Status.ACTIVE cs + 1 ∧
    countStatus Status.LATENT (cs.set idx (activeReset (cs.getD idx cDefault))) =
      countStatus Status.LATENT cs ∧
    countStatus Status.DEAD (cs.set idx (activeReset (cs.getD idx cDefault))) =
      countStatus Status.DEAD cs := by
  have hgd : cs.getD idx cDefault = cs[idx] := List.getD_eq_getElem cs cDefault hlt
  have hhelem : (cs[idx]).s = Status.HEALTHY := by rw [← hgd]; exact hh
  have hpos : 0 < countStatus Status.HEALTHY cs := by
    rw [countStatus, List.countP_pos_iff]
    exact ⟨cs[idx], List.getElem_mem hlt, by simp [hhelem]⟩
  refine ⟨?_, ?_, ?_, ?_⟩ <;>
    · rw [countStatus, List.countP_set _ _ _ _ hlt]
      simp only [countStatus] at hpos ⊢
      simp [hhelem, activeReset]
      all_goals omega

theorem infectGo_spec (pick : ℕ → ℕ) :
    ∀ (k : ℕ) (hIdx : List ℕ) (cs : List Cell),
      k ≤ hIdx.length → hIdx.Nodup →
      (∀ j ∈ hIdx, j < cs.length ∧ (cs.getD j cDefault).s = Status.HEALTHY) →
      (infectGo pick k hIdx cs).length = cs.length ∧
      countStatus Status.HEALTHY (infectGo pick k hIdx cs) + k =
        countStatus Status.HEALTHY cs ∧
      countStatus Status.ACTIVE (infectGo pick k hIdx cs) =
        countStatus Status.ACTIVE cs + k ∧
      countStatus Status.LATENT (infectGo pick k hIdx cs) =
        countStatus Status.LATENT cs ∧
      countStatus Status.DEAD (infectGo pick k hIdx cs) =
        countStatus Status.DEAD cs ∧
      (∀ i : ℕ, (infectGo pick k hIdx cs).getD i cDefault = cs.getD i cDefault ∨
        ((cs.getD i cDefault).s = Status.HEALTHY ∧
          (infectGo pick k hIdx cs).getD i cDefault =
            activeReset (cs.getD i cDefault))) := by
  intro k
  induction k with
  | zero =>
    intro hIdx cs _ _ _
    exact ⟨rfl, by simp [infectGo], by simp [infectGo], by simp [infectGo],
      by simp [infectGo], fun i => Or.inl rfl⟩
  | succ k ih =>
    intro hIdx cs hk hnd hinv
    have hlenpos : 0 < hIdx.length := by omega
    have hne : hIdx ≠ [] := List.length_pos.mp hlenpos
    have hj : pick k % hIdx.length < hIdx.length := Nat.mod_lt _ hlenpos
    set j := pick k % hIdx.length with hjdef
    set idx := hIdx.getD j 0 with hidxdef
    have hmem : idx ∈ hIdx := getD_mem _ _ _ hj
    obtain ⟨hidxlt, hidxh⟩ := hinv idx hmem
    set c := cs.getD idx cDefault with hcdef
    set cs' := cs.set idx (activeReset c) with hcsdef
    have hunfold : infectGo pick (k + 1) hIdx cs =
        infectGo pick k (hIdx.eraseIdx j) cs' := by
      rw [infectGo, if_neg hne]
    have hlen' : cs'.length = cs.length := by simp [hcsdef]
    have herlen : (hIdx.eraseIdx j).length = hIdx.length - 1 := by
      rw [List.length_eraseIdx, if_pos hj]
    have hsub : List.Sublist (hIdx.eraseIdx j) hIdx := List.eraseIdx_sublist hIdx j
    have hnd' : (hIdx.eraseIdx j).Nodup := hnd.sublist hsub
    have hnotmem : idx ∉ hIdx.eraseIdx j :=
      nodup_getD_not_mem_eraseIdx hIdx j hj hnd
    have hinv' : ∀ m ∈ hIdx.eraseIdx j,
        m < cs'.length ∧ (cs'.getD m cDefault).s = Status.HEALTHY := by
      intro m hm
      have hmidx : m ≠ idx := fun hEq => hnotmem (hEq ▸ hm)
      obtain ⟨hmlt, hmh⟩ := hinv m (hsub.subset hm)
      refine ⟨by omega, ?_⟩
      rw [hcsdef, getD_set_ne _ _ _ _ _ (Ne.symm hmidx)]
      exact hmh
    obtain ⟨ihlen, ihH, ihA, ihL, ihD, ihpt⟩ :=
      ih (hIdx.eraseIdx j) cs' (by omega) hnd' hinv'
    obtain ⟨hsH, hsA, hsL, hsD⟩ := countStatus_set_activeReset cs idx hidxlt hidxh
    rw [← hcsdef] at hsH hsA hsL hsD
    rw [hunfold]
    refine ⟨by omega, by omega, by omega, by omega, by omega, ?_⟩
    intro i
    by_cases hieq : i = idx
    · rw [hieq]
      have hgd' : cs'.getD idx cDefault = activeReset c := by
        rw [hcsdef]
        exact getD_set_self _ _ _ _ hidxlt
      rcases ihpt idx with hpt | ⟨hpth, hpt⟩
      · exact Or.inr ⟨hidxh, by rw [hpt, hgd']⟩
      · rw [hgd'] at hpth
        simp [activeReset] at hpth
    · have hgd' : cs'.getD i cDefault = cs.getD i cDefault := by
        rw [hcsdef]
        exact getD_set_ne _ _ _ _ _ (Ne.symm hieq)
      rcases ihpt i with hpt | ⟨hpth, hpt⟩
      · exact Or.inl (by rw [hpt, hgd'])
      · rw [hgd'] at hpth hpt
        exact Or.inr ⟨hpth, hpt⟩

theorem length_filter_range_getD (p : Cell → Bool) (cs : List Cell) :
    ((List.range cs.length).filter (fun i => p (cs.getD i cDefault))).length =
      cs.countP p := by
  induction cs with
  | nil => rfl
  | cons c cs ih =>
    have hmapf : (List.map Nat.succ (List.range cs.length)).filter
          (fun i => p ((c :: cs).getD i cDefault)) =
        List.map Nat.succ ((List.range cs.length).filter
          (fun i => p (cs.getD i cDefault))) := by
      rw [List.filter_map]
      simp [Function.comp_def]
    simp only [List.length_cons, List.range_succ_eq_map, List.filter_cons,
      List.getD_cons_zero]
    rw [hmapf]
    by_cases hp : p c = true
    · rw [if_pos hp, List.length_cons, List.length_map, ih, List.countP_cons, hp]
      simp
    · rw [if_neg hp, List.length_map, ih, List.countP_cons]
      have hpf : p c = false := by simpa using hp
      rw [hpf]
      simp

theorem infectOnce_spec (pick : ℕ → ℕ) (hiv : ℕ) (cs : List Cell) :
    (infectOnce pick hiv cs).length = cs.length ∧
    countStatus Status.HEALTHY (infectOnce pick hiv cs) +
        min (countStatus Status.HEALTHY cs) (1 + hiv / 100) =
      countStatus Status.HEALTHY cs ∧
    countStatus Status.ACTIVE (infectOnce pick hiv cs) =
      countStatus Status.ACTIVE cs +
        min (countStatus Status.HEALTHY cs) (1 + hiv / 100) ∧
    countStatus Status.LATENT (infectOnce pick hiv cs) =
      countStatus Status.LATENT cs ∧
    countStatus Status.DEAD (infectOnce pick hiv cs) =
      countStatus Status.DEAD cs ∧
    (∀ i : ℕ, (infectOnce pick hiv cs).getD i cDefault = cs.getD i cDefault ∨
      ((cs.getD i cDefault).s = Status.HEALTHY ∧
        (infectOnce pick hiv cs).getD i cDefault =
          activeReset (cs.getD i cDefault))) := by
  have hlenh : ((List.range cs.length).filter
      (fun i => decide ((cs.getD i cDefault).s = Status.HEALTHY))).length =
      countStatus Status.HEALTHY cs := by
    rw [countStatus]
    exact length_filter_range_getD (fun c => decide (c.s = Status.HEALTHY)) cs
  rw [infectOnce]
  split_ifs with hemp
  · have h0 : countStatus Status.HEALTHY cs = 0 := by
      rw [← hlenh, hemp]
      rfl
    refine ⟨rfl, by omega, by simp [h0], rfl, rfl, fun i => Or.inl rfl⟩
  · have hnd : ((List.range cs.length).filter
        (fun i => decide ((cs.getD i cDefault).s = Status.HEALTHY))).Nodup :=
      (List.nodup_range _).filter _
    have hinv : ∀ j ∈ (List.range cs.length).filter
        (fun i => decide ((cs.getD i cDefault).s = Status.HEALTHY)),
        j < cs.length ∧ (cs.getD j cDefault).s = Status.HEALTHY := by
      intro j hjmem
      rw [List.mem_filter, List.mem_range] at hjmem
      exact ⟨hjmem.1, of_decide_eq_true hjmem.2⟩
    obtain ⟨h1, h2, h3, h4, h5, h6⟩ := infectGo_spec pick
      (min ((List.range cs.length).filter
        (fun i => decide ((cs.getD i cDefault).s = Status.HEALTHY))).length
        (1 + hiv / 100))
      _ cs (min_le_left _ _) hnd hinv
    simp only [hlenh] at h1 h2 h3 h4 h5 h6 ⊢
    exact ⟨h1, h2, h3, h4, h5, h6⟩

theorem stepCell_of_not_al (artOn : Bool) (o : Oracle) (i : ℕ) (c : Cell)
    (h : ¬(c.s = Status.ACTIVE ∨ c.s = Status.LATENT)) :
    stepCell artOn o i c = (c, [], none) := by
  rw [stepCell, if_neg h]

theorem stepCell_fst_s_of_artOn (o : Oracle) (i : ℕ) (c : Cell) :
    ((stepCell true o i c).1).s = c.s := by
  cases hs : c.s <;> simp [stepCell, hs]

theorem stepCell_dead_iff (artOn : Bool) (o : Oracle) (i : ℕ) (c : Cell) :
    ((stepCell artOn o i c).1).s = Status.DEAD ↔
      (c.s = Status.DEAD ∨
        (c.s = Status.ACTIVE ∧ artOn = false ∧
          DEATH_DELAY_MS ≤ c.ageMs + TICK_MS ∧
          o.deathDraw i < DEATH_CHANCE_PER_TICK_AFTER_DELAY)) := by
  cases hs : c.s with
  | HEALTHY => simp [stepCell, hs]
  | LATENT => simp [stepCell, hs]
  | DEAD => simp [stepCell, hs]
  | ACTIVE =>
    by_cases hcond : artOn = false ∧ DEATH_DELAY_MS ≤ c.ageMs + TICK_MS ∧
        o.deathDraw i < DEATH_CHANCE_PER_TICK_AFTER_DELAY <;>
      simp [stepCell, hs, hcond]

theorem stepCell_adds_at (artOn : Bool) (o : Oracle) (i : ℕ) (c : Cell) :
    (stepCell artOn o i c).2.1 =
      if c.s = Status.ACTIVE ∨ c.s = Status.LATENT then
        ((List.range ((c.relMs + TICK_MS) / 10000)).map (fun j =>
          spawnVirions 5 worldW worldH true [(c.x, c.y)] Virus.HIV
            (fun p => o.trickleDraw i (j * 5 + p)))).flatten
      else [] := by
  cases hs : c.s with
  | HEALTHY => simp [stepCell, hs]
  | LATENT => simp [stepCell, hs]
  | DEAD => simp [stepCell, hs]
  | ACTIVE =>
    by_cases hcond : artOn = false ∧ DEATH_DELAY_MS ≤ c.ageMs + TICK_MS ∧
        o.deathDraw i < DEATH_CHANCE_PER_TICK_AFTER_DELAY <;>
      simp [stepCell, hs, hcond]

theorem stepCell_adds_length (artOn : Bool) (o : Oracle) (i : ℕ) (c : Cell)
    (h : c.s = Status.ACTIVE ∨ c.s = Status.LATENT) :
    ((stepCell artOn o i c).2.1).length = 5 * ((c.relMs + TICK_MS) / 10000) := by
  rw [stepCell_adds_at, if_pos h,
    length_flatten_of_const (m := 5) (fun a _ => length_spawnVirions ..)]
  simp [Nat.mul_comm]

theorem stepCell_relMs (artOn : Bool) (o : Oracle) (i : ℕ) (c : Cell)
    (hAL : c.s = Status.ACTIVE ∨ c.s = Status.LATENT)
    (hsurv : ((stepCell artOn o i c).1).s ≠ Status.DEAD) :
    ((stepCell artOn o i c).1).relMs = (c.relMs + TICK_MS) % 10000 := by
  have hmod : c.relMs + TICK_MS - (c.relMs + TICK_MS) / 10000 * 10000 =
      (c.relMs + TICK_MS) % 10000 := by omega
  rcases hAL with hs | hs
  · by_cases hcond : artOn = false ∧ DEATH_DELAY_MS ≤ c.ageMs + TICK_MS ∧
        o.deathDraw i < DEATH_CHANCE_PER_TICK_AFTER_DELAY
    · exfalso
      apply hsurv
      simp [stepCell, hs, hcond]
    · simp [stepCell, hs, hcond, hmod]
  · simp [stepCell, hs, hmod]

theorem stepCell_addsType (artOn : Bool) (o : Oracle) (i : ℕ) (c : Cell)
    {v : Virion} (hv : v ∈ (stepCell artOn o i c).2.1) : v.type = Virus.HIV := by
  rw [stepCell_adds_at] at hv
  split_ifs at hv with h1
  · rw [List.mem_flatten] at hv
    rcases hv with ⟨l, hl, hvl⟩
    rw [List.mem_map] at hl
    rcases hl with ⟨j, -, rfl⟩
    exact type_of_mem_spawnVirions hvl
  · simp at hv

theorem stepCell_adds_bias (artOn : Bool) (o : Oracle) (i : ℕ) (c : Cell)
    (hd : ∀ j, DrawOK (o.trickleDraw i j)) {v : Virion}
    (hv : v ∈ (stepCell artOn o i c).2.1) :
    |v.x - c.x| ≤ 10 ∧ |v.y - c.y| ≤ 10 := by
  rw [stepCell_adds_at] at hv
  split_ifs at hv with h1
  · rw [List.mem_flatten] at hv
    rcases hv with ⟨l, hl, hvl⟩
    rw [List.mem_map] at hl
    rcases hl with ⟨j, -, rfl⟩
    obtain ⟨ctr, hctr, hbias⟩ := bias_of_mem_spawnVirions hvl (by simp)
      (fun p => hd (j * 5 + p))
    rw [List.mem_singleton] at hctr
    rw [hctr] at hbias
    exact hbias
  · simp at hv

theorem length_foldl_infectOnce (f : ℕ → ℕ → ℕ) (hiv : ℕ) (l : List ℕ)
    (cs : List Cell) :
    (l.foldl (fun cs k => infectOnce (f k) hiv cs) cs).length = cs.length := by
  induction l generalizing cs with
  | nil => rfl
  | cons k l ih =>
    rw [List.foldl_cons, ih, (infectOnce_spec (f k) hiv cs).1]

theorem length_infectPhase (o : Oracle) (s : SimState) :
    (infectPhase o s).length = s.cells.length := by
  rw [infectPhase]
  exact length_foldl_infectOnce o.infPick _ _ _

theorem infectOnce_dead_getD (pick : ℕ → ℕ) (hiv : ℕ) (cs : List Cell) (i : ℕ)
    (h : (cs.getD i cDefault).s = Status.DEAD) :
    ((infectOnce pick hiv cs).getD i cDefault).s = Status.DEAD := by
  rcases (infectOnce_spec pick hiv cs).2.2.2.2.2 i with hpt | ⟨hh, -⟩
  · rw [hpt]
    exact h
  · rw [h] at hh
    simp at hh

theorem dead_foldl_infectOnce (f : ℕ → ℕ → ℕ) (hiv : ℕ) (l : List ℕ)
    (cs : List Cell) (i : ℕ) (h : (cs.getD i cDefault).s = Status.DEAD) :
    ((l.foldl (fun cs k => infectOnce (f k) hiv cs) cs).getD i cDefault).s =
      Status.DEAD := by
  induction l generalizing cs with
  | nil => exact h
  | cons k l ih =>
    rw [List.foldl_cons]
    exact ih _ (infectOnce_dead_getD (f k) hiv cs i h)

theorem infectPhase_dead_getD (o : Oracle) (s : SimState) (i : ℕ)
    (h : (s.cells.getD i cDefault).s = Status.DEAD) :
    ((infectPhase o s).getD i cDefault).s = Status.DEAD := by
  rw [infectPhase]
  exact dead_foldl_infectOnce o.infPick _ _ _ i h

theorem map_mapIdxFrom (f : ℕ → α → β) (g : β → γ) (k : ℕ) (l : List α) :
    (mapIdxFrom f k l).map g = mapIdxFrom (fun i a => g (f i a)) k l := by
  induction l generalizing k with
  | nil => rfl
  | cons a l ih => simp [mapIdxFrom, ih]

theorem tick_cells (o : Oracle) (s : SimState) :
    (tick o s).cells = (tickResults o s).map (fun r => r.1) := rfl

theorem tick_artOn (o : Oracle) (s : SimState) : (tick o s).artOn = s.artOn := rfl

theorem tick_infectAccum (o : Oracle) (s : SimState) :
    (tick o s).infectAccum = s.infectAccum + TICK_MS - fireSteps s * 2000 := rfl

theorem tick_clearAccum (o : Oracle) (s : SimState) :
    (tick o s).clearAccum = s.clearAccum + TICK_MS - clearSecs s * 1000 := rfl

theorem length_tick_cells (o : Oracle) (s : SimState) :
    (tick o s).cells.length = s.cells.length := by
  rw [tick_cells, List.length_map, tickResults, length_mapIdxFrom,
    length_infectPhase]

theorem tick_cells_getD (o : Oracle) (s : SimState) (i : ℕ)
    (hi : i < s.cells.length) :
    ((tick o s).cells).getD i cDefault =
      (stepCell s.artOn o i ((infectPhase o s).getD i cDefault)).1 := by
  have hi' : i < (infectPhase o s).length := by
    rw [length_infectPhase]
    exact hi
  rw [tick_cells, tickResults, map_mapIdxFrom, List.getD_eq_getElem?_getD,
    getElem?_mapIdxFrom, List.getElem?_eq_getElem hi']
  simp only [Nat.zero_add]
  rw [List.getD_eq_getElem _ cDefault hi']
  rfl

theorem countStatus_tick (o : Oracle) (s : SimState) (st : Status)
    (h : ∀ i a, (infectPhase o s)[i]? = some a →
      ((stepCell s.artOn o i a).1).s = a.s) :
    countStatus st ((tick o s).cells) = countStatus st (infectPhase o s) := by
  rw [tick_cells, tickResults, map_mapIdxFrom, countStatus]
  rw [countStatus]
  refine countP_mapIdxFrom _ _ 0 _ ?_
  intro i a ha
  simp only [Nat.zero_add]
  rw [h i a (by simpa using ha)]

theorem fireSteps_of_artOn (s : SimState) (h : s.artOn = true) :
    fireSteps s = 0 := by
  simp [fireSteps, h]

theorem infectPhase_of_artOn (o : Oracle) (s : SimState) (h : s.artOn = true) :
    infectPhase o s = s.cells := by
  rw [infectPhase, fireSteps_of_artOn s h]
  rfl

theorem countStatus_tick_of_artOn (o : Oracle) (s : SimState) (st : Status)
    (h : s.artOn = true) :
    countStatus st ((tick o s).cells) = countStatus st s.cells := by
  have hpres : ∀ (i : ℕ) (a : Cell), (infectPhase o s)[i]? = some a →
      ((stepCell s.artOn o i a).1).s = a.s := by
    intro i a _
    rw [h]
    exact stepCell_fst_s_of_artOn o i a
  rw [countStatus_tick o s st hpres, infectPhase_of_artOn o s h]

theorem countStatus_runTicks_of_artOn (os : List Oracle) (s : SimState)
    (st : Status) (h : s.artOn = true) :
    countStatus st ((runTicks os s).cells) = countStatus st s.cells := by
  induction os generalizing s with
  | nil => rfl
  | cons o os ih =>
    rw [runTicks, List.foldl_cons]
    have h' : (tick o s).artOn = true := by rw [tick_artOn, h]
    calc countStatus st ((runTicks os (tick o s)).cells)
        = countStatus st ((tick o s).cells) := ih (tick o s) h'
      _ = countStatus st s.cells := countStatus_tick_of_artOn o s st h

theorem toggleArt_cells (s : SimState) (h : s.artOn = false) :
    (toggleArt s).cells = s.cells.map (fun c =>
      if c.s = Status.ACTIVE then { c with s := Status.LATENT, ageMs := 0 }
      else c) := by
  rw [toggleArt]
  simp [h]

theorem length_toggleArt_cells (s : SimState) :
    (toggleArt s).cells.length = s.cells.length := by
  rw [toggleArt]
  dsimp only
  split_ifs <;> simp

theorem length_introducePathogen_cells (d : ℕ → Draw) (s : SimState) :
    (introducePathogen d s).cells.length = s.cells.length := by
  simp [introducePathogen]

theorem length_stepCmd_cells (cmd : Cmd) (s : SimState) :
    (stepCmd cmd s).cells.length = s.cells.length := by
  cases cmd with
  | tick o => exact length_tick_cells o s
  | toggleArt => exact length_toggleArt_cells s
  | flush => rfl
  | boost n d => rfl
  | pathogen d => exact length_introducePathogen_cells d s

theorem length_runCmds_cells (cmds : List Cmd) (s : SimState) :
    (runCmds cmds s).cells.length = s.cells.length := by
  induction cmds generalizing s with
  | nil => rfl
  | cons cmd cmds ih =>
    rw [runCmds, List.foldl_cons]
    calc ((cmds.foldl (fun st c => stepCmd c st) (stepCmd cmd s))).cells.length
        = (stepCmd cmd s).cells.length := ih (stepCmd cmd s)
      _ = s.cells.length := length_stepCmd_cells cmd s

theorem map_getD_dead_pres (f : Cell → Cell) (cs : List Cell) (i : ℕ)
    (hf : ∀ c, c.s = Status.DEAD → (f c).s = Status.DEAD)
    (h : (cs.getD i cDefault).s = Status.DEAD) :
    ((cs.map f).getD i cDefault).s = Status.DEAD := by
  by_cases hi : i < cs.length
  · have hi' : i < (cs.map f).length := by simpa using hi
    rw [List.getD_eq_getElem _ _ hi', List.getElem_map]
    exact hf _ (by rwa [List.getD_eq_getElem _ _ hi] at h)
  · rw [List.getD_eq_default _ _ (by omega)] at h
    simp [cDefault] at h

theorem stepCmd_dead (cmd : Cmd) (s : SimState) (i : ℕ)
    (h : (s.cells.getD i cDefault).s = Status.DEAD) :
    ((stepCmd cmd s).cells.getD i cDefault).s = Status.DEAD := by
  have hi : i < s.cells.length := by
    by_contra hge
    rw [List.getD_eq_default _ _ (by omega)] at h
    simp [cDefault] at h
  cases cmd with
  | tick o =>
    rw [stepCmd, tick_cells_getD o s i hi]
    have hdead : ((infectPhase o s).getD i cDefault).s = Status.DEAD :=
      infectPhase_dead_getD o s i h
    rw [stepCell_of_not_al _ _ _ _ (by rw [hdead]; simp)]
    exact hdead
  | toggleArt =>
    rw [stepCmd, toggleArt]
    dsimp only
    split_ifs with ha
    · exact map_getD_dead_pres _ _ i (fun c hc => by simp [hc]) h
    · exact h
  | flush => exact h
  | boost n d => exact h
  | pathogen d =>
    rw [stepCmd, introducePathogen]
    exact map_getD_dead_pres _ _ i (fun c hc => by simp [hc]) h

theorem runCmds_dead (cmds : List Cmd) (s : SimState) (i : ℕ)
    (h : (s.cells.getD i cDefault).s = Status.DEAD) :
    ((runCmds cmds s).cells.getD i cDefault).s = Status.DEAD := by
  induction cmds generalizing s with
  | nil => exact h
  | cons cmd cmds ih =>
    rw [runCmds, List.foldl_cons]
    exact ih (stepCmd cmd s) (stepCmd_dead cmd s i h)

theorem mapIdxFrom_eq_map {f : ℕ → α → β} {g : α → β} (k : ℕ) (l : List α)
    (h : ∀ i a, f i a = g a) : mapIdxFrom f k l = l.map g := by
  induction l generalizing k with
  | nil => rfl
  | cons a l ih => simp [mapIdxFrom, h, ih]

theorem moveVirions_types (vs : List Virion) (w h : ℝ) (d : ℕ → ℚ × ℚ) :
    (moveVirions vs w h d).map (fun v => v.type) = vs.map (fun v => v.type) := by
  rw [moveVirions, map_mapIdxFrom]
  exact mapIdxFrom_eq_map 0 vs (fun i a => moveVirion_type w h (d i) a)

theorem countVirionsByType_moveVirions (vs : List Virion) (w h : ℝ)
    (d : ℕ → ℚ × ℚ) (ty : Virus) :
    countVirionsByType (moveVirions vs w h d) ty = countVirionsByType vs ty := by
  rw [countVirionsByType, countVirionsByType, moveVirions]
  exact countP_mapIdxFrom _ _ 0 vs (fun i a _ => by rw [moveVirion_type])

theorem pathCount_eq_zero_of_all_hiv {l : List Virion}
    (h : ∀ v ∈ l, v.type = Virus.HIV) :
    countVirionsByType l Virus.PATHOGEN = 0 := by
  rw [countVirionsByType, List.countP_eq_zero]
  intro v hv
  simp [h v hv]

theorem deathBurst_all_hiv (o : Oracle) (sites : List (ℝ × ℝ)) :
    ∀ v ∈ deathBurst o sites, v.type = Virus.HIV := by
  intro v hv
  rw [deathBurst, List.mem_flatten] at hv
  rcases hv with ⟨l, hl, hvl⟩
  rw [List.mem_map] at hl
  rcases hl with ⟨si, -, rfl⟩
  exact type_of_mem_spawnVirions hvl

theorem tickHivAdds_all_hiv (o : Oracle) (s : SimState) :
    ∀ v ∈ tickHivAdds o s, v.type = Virus.HIV := by
  intro v hv
  rw [tickHivAdds, List.mem_append] at hv
  rcases hv with hv | hv
  · rw [List.mem_flatten] at hv
    rcases hv with ⟨l, hl, hvl⟩
    rw [List.mem_map] at hl
    rcases hl with ⟨r, hr, rfl⟩
    rcases mem_mapIdxFrom hr with ⟨i, a, -, rfl⟩
    exact stepCell_addsType _ _ _ _ hvl
  · split_ifs at hv with hgate
    · exact deathBurst_all_hiv o _ v hv
    · simp at hv

theorem countP_filter_ne_hiv (l : List Virion) :
    (l.filter (fun v => decide (v.type ≠ Virus.HIV))).countP
        (fun v => decide (v.type = Virus.PATHOGEN)) =
      l.countP (fun v => decide (v.type = Virus.PATHOGEN)) := by
  rw [List.countP_filter]
  refine List.countP_congr ?_
  intro v _
  cases hv : v.type <;> simp [hv]

theorem tick_virions (o : Oracle) (s : SimState) :
    (tick o s).virions =
      (if (tickHivAdds o s).isEmpty = false
        then tickHivKept o s ++ tickHivAdds o s else tickHivKept o s) ++
      (moveVirions s.virions worldW worldH o.driftDraw).filter
        (fun v => decide (v.type ≠ Virus.HIV)) := rfl

theorem tickHivKept_all_hiv (o : Oracle) (s : SimState) :
    ∀ v ∈ tickHivKept o s, v.type = Virus.HIV := by
  intro v hv
  rw [tickHivKept] at hv
  split_ifs at hv with hgate
  · have hv' := (List.take_sublist _ _).subset hv
    rw [List.mem_filter] at hv'
    exact of_decide_eq_true hv'.2
  · rw [List.mem_filter] at hv
    exact of_decide_eq_true hv.2

theorem tick_pathCount (o : Oracle) (s : SimState) :
    countVirionsByType (tick o s).virions Virus.PATHOGEN =
      countVirionsByType s.virions Virus.PATHOGEN := by
  rw [tick_virions, countVirionsByType, List.countP_append]
  have hall : ∀ v ∈ (if (tickHivAdds o s).isEmpty = false
      then tickHivKept o s ++ tickHivAdds o s else tickHivKept o s),
      v.type = Virus.HIV := by
    intro v hv
    split_ifs at hv with hadds
    · rw [List.mem_append] at hv
      rcases hv with hv | hv
      · exact tickHivKept_all_hiv o s v hv
      · exact tickHivAdds_all_hiv o s v hv
    · exact tickHivKept_all_hiv o s v hv
  have hfst := pathCount_eq_zero_of_all_hiv hall
  rw [countVirionsByType] at hfst
  rw [hfst, countP_filter_ne_hiv, Nat.zero_add, ← countVirionsByType,
    countVirionsByType_moveVirions]

theorem countVirionsByType_append (l1 l2 : List Virion) (ty : Virus) :
    countVirionsByType (l1 ++ l2) ty =
      countVirionsByType l1 ty + countVirionsByType l2 ty := by
  rw [countVirionsByType, countVirionsByType, countVirionsByType]
  exact List.countP_append _ _ _

theorem flush_pathCount (s : SimState) :
    countVirionsByType (flushFreeVirus s).virions Virus.PATHOGEN =
      countVirionsByType s.virions Virus.PATHOGEN := by
  rw [flushFreeVirus]
  exact countP_filter_ne_hiv s.virions

theorem flush_hivCount (s : SimState) :
    countVirionsByType (flushFreeVirus s).virions Virus.HIV = 0 := by
  rw [flushFreeVirus, countVirionsByType, List.countP_eq_zero]
  intro v hv
  rw [List.mem_filter] at hv
  simpa using hv.2

theorem spawnVirions_pathCount (n : ℕ) (w h : ℝ) (bias : Bool)
    (centers : List (ℝ × ℝ)) (d : ℕ → Draw) :
    countVirionsByType (spawnVirions n w h bias centers Virus.HIV d)
      Virus.PATHOGEN = 0 :=
  pathCount_eq_zero_of_all_hiv (fun _ hv => type_of_mem_spawnVirions hv)

theorem stepCmd_pathCount_ge (cmd : Cmd) (s : SimState) :
    countVirionsByType s.virions Virus.PATHOGEN ≤
      countVirionsByType (stepCmd cmd s).virions Virus.PATHOGEN := by
  cases cmd with
  | tick o => exact (tick_pathCount o s).ge
  | toggleArt => exact le_refl _
  | flush => exact (flush_pathCount s).ge
  | boost n d =>
    have hv : (stepCmd (Cmd.boost n d) s).virions =
        s.virions ++ spawnVirions n worldW worldH false [] Virus.HIV d := rfl
    rw [hv, countVirionsByType_append, spawnVirions_pathCount]
    omega
  | pathogen d =>
    have hv : (stepCmd (Cmd.pathogen d) s).virions =
        s.virions ++ spawnVirions 50 worldW worldH true
          (s.cells.map (fun c => (c.x, c.y))) Virus.PATHOGEN d := rfl
    rw [hv, countVirionsByType_append]
    exact Nat.le_add_right _ _

theorem length_deathBurst (o : Oracle) (sites : List (ℝ × ℝ)) :
    (deathBurst o sites).length = 50 * sites.length := by
  rw [deathBurst,
    length_flatten_of_const (m := 50) (fun a _ => length_spawnVirions ..)]
  simp [Nat.mul_comm]

theorem deathBurst_bias (o : Oracle) (sites : List (ℝ × ℝ))
    (hd : ∀ si j, DrawOK (o.burstDraw si j)) :
    ∀ v ∈ deathBurst o sites, ∃ site ∈ sites,
      |v.x - site.1| ≤ 10 ∧ |v.y - site.2| ≤ 10 := by
  intro v hv
  rw [deathBurst, List.mem_flatten] at hv
  rcases hv with ⟨l, hl, hvl⟩
  rw [List.mem_map] at hl
  rcases hl with ⟨si, hsi, rfl⟩
  rw [List.mem_range] at hsi
  obtain ⟨ctr, hctr, hbias⟩ := bias_of_mem_spawnVirions hvl (by simp)
    (fun j => hd si j)
  rw [List.mem_singleton] at hctr
  rw [hctr] at hbias
  exact ⟨sites.getD si (0, 0), getD_mem _ _ _ hsi, hbias⟩

theorem stepCell_fst_s_of_young (artOn : Bool) (o : Oracle) (i : ℕ) (c : Cell)
    (h : c.ageMs + TICK_MS < DEATH_DELAY_MS) :
    ((stepCell artOn o i c).1).s = c.s := by
  cases hs : c.s with
  | HEALTHY => simp [stepCell, hs]
  | LATENT => simp [stepCell, hs]
  | DEAD => simp [stepCell, hs]
  | ACTIVE =>
    have hcond : ¬(artOn = false ∧ DEATH_DELAY_MS ≤ c.ageMs + TICK_MS ∧
        o.deathDraw i < DEATH_CHANCE_PER_TICK_AFTER_DELAY) := by
      rintro ⟨-, hd, -⟩
      omega
    simp [stepCell, hs, hcond]

theorem foldl_infectOnce_getD (f : ℕ → ℕ → ℕ) (hiv : ℕ) (l : List ℕ)
    (cs : List Cell) (i : ℕ) :
    (l.foldl (fun cs k => infectOnce (f k) hiv cs) cs).getD i cDefault =
        cs.getD i cDefault ∨
      ((cs.getD i cDefault).s = Status.HEALTHY ∧
        (l.foldl (fun cs k => infectOnce (f k) hiv cs) cs).getD i cDefault =
          activeReset (cs.getD i cDefault)) := by
  induction l generalizing cs with
  | nil => exact Or.inl rfl
  | cons k l ih =>
    rw [List.foldl_cons]
    rcases ih (infectOnce (f k) hiv cs) with h1 | ⟨hh1, h1⟩ <;>
      rcases (infectOnce_spec (f k) hiv cs).2.2.2.2.2 i with h2 | ⟨hh2, h2⟩
    · exact Or.inl (h1.trans h2)
    · exact Or.inr ⟨hh2, h1.trans h2⟩
    · rw [h2] at hh1
      exact Or.inr ⟨hh1, by rw [h1, h2]⟩
    · rw [h2] at hh1
      simp [activeReset] at hh1

theorem infectPhase_getD (o : Oracle) (s : SimState) (i : ℕ) :
    (infectPhase o s).getD i cDefault = s.cells.getD i cDefault ∨
      ((s.cells.getD i cDefault).s = Status.HEALTHY ∧
        (infectPhase o s).getD i cDefault =
          activeReset (s.cells.getD i cDefault)) := by
  rw [infectPhase]
  exact foldl_infectOnce_getD o.infPick _ _ s.cells i

theorem replicate_getD_healthy (n i : ℕ) :
    (List.replicate n healthyCell).getD i cDefault = healthyCell := by
  by_cases hi : i < n
  · rw [List.getD_eq_getElem _ _ (by simpa using hi), List.getElem_replicate]
  · rw [List.getD_eq_default _ _ (by simpa using hi)]
    rfl

theorem countStatus_tick_of_young (o : Oracle) (s : SimState) (st : Status)
    (h : ∀ i : ℕ, ((infectPhase o s).getD i cDefault).ageMs + TICK_MS <
      DEATH_DELAY_MS) :
    countStatus st ((tick o s).cells) = countStatus st (infectPhase o s) := by
  refine countStatus_tick o s st ?_
  intro i a ha
  have hga : (infectPhase o s).getD i cDefault = a := by
    rw [List.getD_eq_getElem?_getD, ha]
    rfl
  exact stepCell_fst_s_of_young _ o i a (by rw [← hga]; exact h i)

theorem countStatus_replicate (st : Status) (n : ℕ) (c : Cell) :
    countStatus st (List.replicate n c) = if c.s = st then n else 0 := by
  rw [countStatus, List.countP_replicate]
  by_cases h : c.s = st
  · simp [h]
  · simp [h]

/-- C1: population size is invariant.  After initialization (1000 cells) and
any sequence of ticks and interventions (therapy toggle, flush, boost,
introduce-pathogen), the four status counts still sum to the initial agent
count 1000: no operation creates or destroys an agent. -/
theorem c1_population_invariant (jit : ℕ → ℚ × ℚ) (d : ℕ → Draw)
    (cmds : List Cmd) :
    countStatus Status.HEALTHY ((runCmds cmds (initState jit d)).cells) +
      countStatus Status.LATENT ((runCmds cmds (initState jit d)).cells) +
      countStatus Status.ACTIVE ((runCmds cmds (initState jit d)).cells) +
      countStatus Status.DEAD ((runCmds cmds (initState jit d)).cells) =
      1000 := by
  rw [countStatus_sum, length_runCmds_cells]
  show (placeCells cellCount worldW worldH jit).length = 1000
  rw [length_placeCells]
  rfl

/-- C2: therapy ON edge.  If therapy is OFF and the toggle is pressed, then in
the same logical step no agent remains ACTIVE: every agent that was ACTIVE is
now that same agent with state LATENT and its age timer reset to zero. -/
theorem c2_therapy_on_edge (s : SimState) (h : s.artOn = false) :
    countStatus Status.ACTIVE ((toggleArt s).cells) = 0 ∧
    ∀ i : ℕ, (s.cells.getD i cDefault).s = Status.ACTIVE →
      (toggleArt s).cells.getD i cDefault =
        { s.cells.getD i cDefault with s := Status.LATENT, ageMs := 0 } := by
  have hcells := toggleArt_cells s h
  constructor
  · rw [hcells, countStatus, List.countP_eq_zero]
    intro c hc
    rw [List.mem_map] at hc
    rcases hc with ⟨c0, -, rfl⟩
    by_cases hc0 : c0.s = Status.ACTIVE <;> simp [hc0]
  · intro i hi
    have hlt : i < s.cells.length := by
      by_contra hge
      rw [List.getD_eq_default _ _ (by omega)] at hi
      simp [cDefault] at hi
    rw [hcells, List.getD_eq_getElem _ _ (by simpa using hlt),
      List.getElem_map, ← List.getD_eq_getElem _ cDefault hlt, if_pos hi]

/-- C2 witness: a concrete OFF state with one ACTIVE agent has zero ACTIVE
agents right after the toggle. -/
theorem c2_therapy_on_edge_witness :
    countStatus Status.ACTIVE ((toggleArt c2OffState).cells) = 0 :=
  (c2_therapy_on_edge c2OffState rfl).1

/-- C3 counterexample: with 60 HIV and 50 PATHOGEN particles (110 free
particles total) and two healthy agents, the claim computes
`min(2, 1 + floor(110/100)) = 2` infections, but the firing infects exactly
one agent — the code divides only the HIV-type count by 100, not the total
free-particle count. -/
theorem c3_counterexample :
    countStatus Status.ACTIVE ((tick zeroOracle c3MixState).cells) = 1 ∧
    min (countStatus Status.HEALTHY c3MixState.cells)
      (1 + c3MixState.virions.length / 100) = 2 := by
  constructor
  · decide
  · decide

/-- C3 (amended): when the infection rule fires with therapy OFF it infects
exactly `min(healthyCount, 1 + floor(freeHIVCount / 100))` agents — the
particle count in the batch formula is the count of HIV-type particles, not
of all free particles.  Each infected agent was HEALTHY and becomes ACTIVE
with both its age and shedding timers reset to zero, all other agents are
untouched, and in the spec scenario (1000 healthy agents, 100 HIV particles,
therapy OFF) a single firing of the tick turns exactly 2 agents ACTIVE. -/
theorem c3_infection_batch :
    (∀ (pick : ℕ → ℕ) (hiv : ℕ) (cs : List Cell),
      countStatus Status.ACTIVE (infectOnce pick hiv cs) =
        countStatus Status.ACTIVE cs +
          min (countStatus Status.HEALTHY cs) (1 + hiv / 100) ∧
      countStatus Status.HEALTHY (infectOnce pick hiv cs) +
          min (countStatus Status.HEALTHY cs) (1 + hiv / 100) =
        countStatus Status.HEALTHY cs ∧
      countStatus Status.LATENT (infectOnce pick hiv cs) =
        countStatus Status.LATENT cs ∧
      countStatus Status.DEAD (infectOnce pick hiv cs) =
        countStatus Status.DEAD cs ∧
      (infectOnce pick hiv cs).length = cs.length ∧
      (∀ i : ℕ,
        (infectOnce pick hiv cs).getD i cDefault = cs.getD i cDefault ∨
        ((cs.getD i cDefault).s = Status.HEALTHY ∧
          (infectOnce pick hiv cs).getD i cDefault =
            activeReset (cs.getD i cDefault)))) ∧
    (∀ o : Oracle, countStatus Status.ACTIVE ((tick o c3ScenarioState).cells) = 2) := by
  constructor
  · intro pick hiv cs
    obtain ⟨h1, h2, h3, h4, h5, h6⟩ := infectOnce_spec pick hiv cs
    exact ⟨h3, h2, h4, h5, h1, h6⟩
  · intro o
    have h1 : fireSteps c3ScenarioState = 1 := by decide
    have h2 : countVirionsByType c3ScenarioState.virions Virus.HIV = 100 := by
      decide
    have hcells : c3ScenarioState.cells = List.replicate 1000 healthyCell := rfl
    have hr1 : List.range 1 = [0] := rfl
    have hinf : infectPhase o c3ScenarioState =
        infectOnce (o.infPick 0) 100 (List.replicate 1000 healthyCell) := by
      rw [infectPhase, h1, h2, hcells, hr1, List.foldl_cons, List.foldl_nil]
    have hyoung : ∀ i : ℕ,
        ((infectPhase o c3ScenarioState).getD i cDefault).ageMs + TICK_MS <
          DEATH_DELAY_MS := by
      intro i
      have hage : ((infectPhase o c3ScenarioState).getD i cDefault).ageMs = 0 := by
        rcases infectPhase_getD o c3ScenarioState i with hpt | ⟨-, hpt⟩
        · rw [hpt, hcells, replicate_getD_healthy]
          rfl
        · rw [hpt, hcells, replicate_getD_healthy]
          rfl
      rw [hage]
      decide
    rw [countStatus_tick_of_young o c3ScenarioState Status.ACTIVE hyoung, hinf,
      (infectOnce_spec (o.infPick 0) 100 (List.replicate 1000 healthyCell)).2.2.1,
      countStatus_replicate, countStatus_replicate]
    decide

/-- C4 counterexample: with therapy ON and the infection accumulator at
1900 ms, the tick brings it to 2220 ≥ 2000, so the claim says the rule fires
and the accumulator drops to the remainder 220; the code instead skips the
gated rule entirely and leaves the accumulator at 2220. -/
theorem c4_counterexample :
    (tick zeroOracle c4GateState).infectAccum = 2220 ∧
    (c4GateState.infectAccum + TICK_MS) % 2000 = 220 ∧
    (2220 : ℕ) ≠ 220 := by
  refine ⟨?_, by decide, by decide⟩
  decide

/-- C4 (amended): each tick adds the fixed tick length to both cadence
accumulators; the infection accumulator (period 2000 ms) fires only while
therapy is OFF and the clearance accumulator (period 1000 ms) only while
therapy is ON.  When its gate is satisfied, an accumulator that reached its
period is reduced by exactly `fired_count x period`, keeping the remainder
(never resetting to zero); while the gate is off it simply keeps growing. -/
theorem c4_accumulator_cadence (o : Oracle) (s : SimState) :
    ((tick o s).infectAccum =
      if s.artOn = false then (s.infectAccum + TICK_MS) % 2000
      else s.infectAccum + TICK_MS) ∧
    ((tick o s).clearAccum =
      if s.artOn = true then (s.clearAccum + TICK_MS) % 1000
      else s.clearAccum + TICK_MS) ∧
    (tick o s).infectAccum + fireSteps s * 2000 = s.infectAccum + TICK_MS ∧
    (tick o s).clearAccum + clearSecs s * 1000 = s.clearAccum + TICK_MS := by
  have hfire : fireSteps s * 2000 ≤ s.infectAccum + TICK_MS := by
    rw [fireSteps]
    split_ifs with h
    · omega
    · omega
  have hclear : clearSecs s * 1000 ≤ s.clearAccum + TICK_MS := by
    rw [clearSecs]
    split_ifs with h
    · omega
    · omega
  refine ⟨?_, ?_, ?_, ?_⟩
  · rw [tick_infectAccum, fireSteps]
    cases hart : s.artOn
    · by_cases hge : 2000 ≤ s.infectAccum + TICK_MS
      · rw [if_pos ⟨rfl, hge⟩, if_pos rfl]
        omega
      · rw [if_neg (by rintro ⟨-, hc⟩; exact hge hc), if_pos rfl]
        omega
    · rw [if_neg (by rintro ⟨hc, -⟩; cases hc), if_neg (by intro hc; cases hc)]
      omega
  · rw [tick_clearAccum, clearSecs]
    cases hart : s.artOn
    · rw [if_neg (by rintro ⟨hc, -⟩; cases hc), if_neg (by intro hc; cases hc)]
      omega
    · by_cases hge : 1000 ≤ s.clearAccum + TICK_MS
      · rw [if_pos ⟨rfl, hge⟩, if_pos rfl]
        omega
      · rw [if_neg (by rintro ⟨-, hc⟩; exact hge hc), if_pos rfl]
        omega
  · rw [tick_infectAccum]
    omega
  · rw [tick_clearAccum]
    omega

/-- C5 counterexample: an ACTIVE agent past the 30000 ms dwell with a
successful 0.02 roll survives the tick when therapy is ON — the death roll
itself, not just the burst, is gated on therapy being OFF, so "once eligible,
a fixed per-tick probability of 0.02 applies" fails under therapy. -/
theorem c5_counterexample :
    c5ArtOnState.artOn = true ∧
    (c5ArtOnState.cells.getD 0 cDefault).s = Status.ACTIVE ∧
    DEATH_DELAY_MS ≤ (c5ArtOnState.cells.getD 0 cDefault).ageMs + TICK_MS ∧
    zeroOracle.deathDraw 0 < DEATH_CHANCE_PER_TICK_AFTER_DELAY ∧
    ((tick zeroOracle c5ArtOnState).cells.getD 0 cDefault).s =
      Status.ACTIVE := by
  refine ⟨rfl, rfl, by decide, by decide, ?_⟩
  decide

/-- C5 (amended): an agent dies in a tick exactly when it was ACTIVE, therapy
is OFF, its age timer (after this tick's increment) has reached the 30000 ms
dwell, and its 0.02-probability roll succeeded — so with therapy ON no death
(and hence no burst) is possible at all; each death contributes exactly 50
particles to the burst, spawned within ±10 of the dead agent's location. -/
theorem c5_death_and_burst :
    (∀ (artOn : Bool) (o : Oracle) (i : ℕ) (c : Cell),
      ((stepCell artOn o i c).1).s = Status.DEAD ↔
        (c.s = Status.DEAD ∨
          (c.s = Status.ACTIVE ∧ artOn = false ∧
            DEATH_DELAY_MS ≤ c.ageMs + TICK_MS ∧
            o.deathDraw i < DEATH_CHANCE_PER_TICK_AFTER_DELAY))) ∧
    (∀ (o : Oracle) (sites : List (ℝ × ℝ)),
      (deathBurst o sites).length = 50 * sites.length) ∧
    (∀ (o : Oracle) (sites : List (ℝ × ℝ)),
      (∀ si j, DrawOK (o.burstDraw si j)) →
      ∀ v ∈ deathBurst o sites, ∃ site ∈ sites,
        |v.x - site.1| ≤ 10 ∧ |v.y - site.2| ≤ 10) :=
  ⟨stepCell_dead_iff, length_deathBurst, deathBurst_bias⟩

/-- C5 witness: a concrete burst particle at the site (0,0) lies within ±10
of it. -/
theorem c5_death_and_burst_witness :
    ∃ site ∈ [((0 : ℝ), (0 : ℝ))],
      |((deathBurst zeroOracle [((0 : ℝ), (0 : ℝ))]).getD 0 vDefault).x -
        site.1| ≤ 10 ∧
      |((deathBurst zeroOracle [((0 : ℝ), (0 : ℝ))]).getD 0 vDefault).y -
        site.2| ≤ 10 := by
  have hmem : (deathBurst zeroOracle [((0 : ℝ), (0 : ℝ))]).getD 0 vDefault ∈
      deathBurst zeroOracle [((0 : ℝ), (0 : ℝ))] := by
    refine getD_mem _ _ _ ?_
    rw [c5_death_and_burst.2.1]
    decide
  have hok : DrawOK zeroDraw := ⟨by decide, by decide, by decide, by decide⟩
  exact c5_death_and_burst.2.2 zeroOracle _ (fun _ _ => hok) _ hmem

/-- C6 counterexample: an ACTIVE shedder whose timer crosses the 10000 ms
period in the same tick in which it dies emits its 5 particles (plus the
50-particle death burst), but its shedding timer is reset to 0 instead of
keeping the remainder 20. -/
theorem c6_counterexample :
    (c6DieState.cells.getD 0 cDefault).s = Status.ACTIVE ∧
    ((c6DieState.cells.getD 0 cDefault).relMs + TICK_MS) % 10000 = 20 ∧
    ((tick zeroOracle c6DieState).cells.getD 0 cDefault).s = Status.DEAD ∧
    ((tick zeroOracle c6DieState).cells.getD 0 cDefault).relMs = 0 ∧
    (tick zeroOracle c6DieState).virions.length = 55 := by
  refine ⟨rfl, by decide, ?_, ?_, ?_⟩ <;> decide

/-- C6 (amended): every ACTIVE or LATENT agent accumulates its shedding timer
by the tick length and emits exactly 5 HIV particles per elapsed 10000 ms
period, each spawned within ±10 of the agent's own location; the timer keeps
its remainder except when the agent dies in that same tick, in which case it
is reset to 0 together with the rest of the agent's timers. -/
theorem c6_shedding (artOn : Bool) (o : Oracle) (i : ℕ) (c : Cell)
    (hAL : c.s = Status.ACTIVE ∨ c.s = Status.LATENT) :
    ((stepCell artOn o i c).2.1).length =
      5 * ((c.relMs + TICK_MS) / 10000) ∧
    (∀ v ∈ (stepCell artOn o i c).2.1, v.type = Virus.HIV) ∧
    ((∀ j, DrawOK (o.trickleDraw i j)) →
      ∀ v ∈ (stepCell artOn o i c).2.1,
        |v.x - c.x| ≤ 10 ∧ |v.y - c.y| ≤ 10) ∧
    (((stepCell artOn o i c).1).s ≠ Status.DEAD →
      ((stepCell artOn o i c).1).relMs = (c.relMs + TICK_MS) % 10000) :=
  ⟨stepCell_adds_length artOn o i c hAL,
   fun _ hv => stepCell_addsType artOn o i c hv,
   fun hd _ hv => stepCell_adds_bias artOn o i c hd hv,
   stepCell_relMs artOn o i c hAL⟩

/-- C6 witness: a LATENT agent with timer 9900 emits exactly 5 particles this
tick and its timer holds the remainder 220. -/
theorem c6_shedding_witness :
    ((stepCell false zeroOracle 0 c6LatentCell).2.1).length = 5 ∧
    ((stepCell false zeroOracle 0 c6LatentCell).1).relMs = 220 := by
  obtain ⟨hlen, -, -, hrel⟩ :=
    c6_shedding false zeroOracle 0 c6LatentCell (Or.inr rfl)
  refine ⟨hlen.trans (by decide), (hrel (by decide)).trans (by decide)⟩

/-- C7: infection only while therapy OFF.  With therapy ON, running any
number of ticks leaves the ACTIVE-plus-LATENT agent count unchanged (the
infection step is skipped entirely; in fact no agent changes state during a
therapy-ON tick). -/
theorem c7_no_infection_under_art (os : List Oracle) (s : SimState)
    (h : s.artOn = true) :
    countStatus Status.ACTIVE ((runTicks os s).cells) +
      countStatus Status.LATENT ((runTicks os s).cells) =
    countStatus Status.ACTIVE s.cells + countStatus Status.LATENT s.cells := by
  rw [countStatus_runTicks_of_artOn os s _ h,
    countStatus_runTicks_of_artOn os s _ h]

/-- C7 witness: two therapy-ON ticks leave one ACTIVE plus one LATENT agent
counted unchanged. -/
theorem c7_no_infection_under_art_witness :
    countStatus Status.ACTIVE ((runTicks [zeroOracle, zeroOracle] c7OnState).cells) +
      countStatus Status.LATENT ((runTicks [zeroOracle, zeroOracle] c7OnState).cells) =
      2 :=
  (c7_no_infection_under_art [zeroOracle, zeroOracle] c7OnState rfl).trans
    (by decide)

/-- C8: DEAD is absorbing.  Once an agent is DEAD, no sequence of ticks and
interventions (therapy toggle, flush, boost, introduce-pathogen) ever changes
its state again. -/
theorem c8_dead_absorbing (cmds : List Cmd) (s : SimState) (i : ℕ)
    (h : (s.cells.getD i cDefault).s = Status.DEAD) :
    ((runCmds cmds s).cells.getD i cDefault).s = Status.DEAD :=
  runCmds_dead cmds s i h

/-- C8 witness: a DEAD agent stays DEAD through a toggle, a flush, a tick and
a pathogen introduction. -/
theorem c8_dead_absorbing_witness :
    ((runCmds [Cmd.toggleArt, Cmd.flush, Cmd.tick zeroOracle,
      Cmd.pathogen (fun _ => zeroDraw)] c8DeadState).cells.getD 0 cDefault).s =
      Status.DEAD :=
  c8_dead_absorbing _ c8DeadState 0 rfl

/-- C10: pathogen-type particles persist until reset.  No tick and no command
other than reset ever decreases the PATHOGEN-type particle count: the tick
preserves it exactly (motion preserves the particle list's length and types,
and both the clearance step and the flush command remove only HIV-type
particles, while flush empties the HIV population). -/
theorem c10_pathogen_persistence :
    (∀ (cmd : Cmd) (s : SimState),
      countVirionsByType s.virions Virus.PATHOGEN ≤
        countVirionsByType (stepCmd cmd s).virions Virus.PATHOGEN) ∧
    (∀ (o : Oracle) (s : SimState),
      countVirionsByType (tick o s).virions Virus.PATHOGEN =
        countVirionsByType s.virions Virus.PATHOGEN) ∧
    (∀ (vs : List Virion) (w h : ℝ) (d : ℕ → ℚ × ℚ),
      (moveVirions vs w h d).length = vs.length ∧
      (moveVirions vs w h d).map (fun v => v.type) =
        vs.map (fun v => v.type)) ∧
    (∀ s : SimState,
      countVirionsByType (flushFreeVirus s).virions Virus.PATHOGEN =
        countVirionsByType s.virions Virus.PATHOGEN ∧
      countVirionsByType (flushFreeVirus s).virions Virus.HIV = 0) :=
  ⟨stepCmd_pathCount_ge, tick_pathCount,
   fun vs w h d => ⟨length_moveVirions vs w h d, moveVirions_types vs w h d⟩,
   fun s => ⟨flush_pathCount s, flush_hivCount s⟩⟩

theorem moveVirion_eval (w h : ℝ) (d : ℚ × ℚ) (v : Virion)
    (bx by' : ℝ × ℝ) (hbx : bounce1 2 (w - 2) (v.x + v.vx) v.vx = bx)
    (hby : bounce1 2 (h - 2) (v.y + v.vy) v.vy = by')
    (hd1 : ((d.1 : ℝ) - 0.5) * 0.1 = 0) (hd2 : ((d.2 : ℝ) - 0.5) * 0.1 = 0)
    (hns : ¬ Real.sqrt (bx.2 ^ 2 + by'.2 ^ 2) > 1.6) :
    moveVirion w h d v =
      { v with x := bx.1, y := by'.1, vx := bx.2, vy := by'.2 } := by
  unfold moveVirion
  rw [hbx, hby, hd1, hd2]
  dsimp only
  simp only [add_zero]
  rw [if_neg hns]

/-- C9 counterexample: a particle at x = 0 with velocity vx = 1/2 violates
the low-x boundary this step (0 + 1/2 < 2); the motion step clamps its
position to the inset 2 but leaves vx = 1/2 — same sign as before, so the
velocity component on the violated axis did NOT flip sign (the code sets the
component to point away from the wall via an absolute value, which is a no-op
for a particle already moving away from the wall it stands beyond). -/
theorem c9_counterexample :
    c9Virion.x + c9Virion.vx < 2 ∧
    0 < c9Virion.vx ∧
    (moveVirion worldW worldH ((1 : ℚ)/2, (1 : ℚ)/2) c9Virion).x = 2 ∧
    (moveVirion worldW worldH ((1 : ℚ)/2, (1 : ℚ)/2) c9Virion).vx =
      c9Virion.vx := by
  have h1 : c9Virion.x + c9Virion.vx < 2 := by norm_num [c9Virion]
  have h2 : (0 : ℝ) < c9Virion.vx := by norm_num [c9Virion]
  have habs : |c9Virion.vx| = c9Virion.vx := abs_of_pos h2
  have hbx : bounce1 2 (worldW - 2) (c9Virion.x + c9Virion.vx) c9Virion.vx =
      ((2 : ℝ), (1 : ℝ)/2) := by
    rw [bounce1_low _ _ _ _ h1, habs]
    norm_num [c9Virion]
  have hby : bounce1 2 (worldH - 2) (c9Virion.y + c9Virion.vy) c9Virion.vy =
      ((100 : ℝ), (0 : ℝ)) := by
    rw [bounce1]
    rw [if_neg (by norm_num [c9Virion]), if_neg (by norm_num [c9Virion, worldH])]
    norm_num [c9Virion]
  have hd1 : (((((1 : ℚ)/2, (1 : ℚ)/2) : ℚ × ℚ).1 : ℝ) - 0.5) * 0.1 = 0 := by
    push_cast
    norm_num
  have hns : ¬ Real.sqrt ((((2 : ℝ), (1 : ℝ)/2).2) ^ 2 +
      (((100 : ℝ), (0 : ℝ)).2) ^ 2) > 1.6 := by
    have hsum : (((2 : ℝ), (1 : ℝ)/2).2) ^ 2 + (((100 : ℝ), (0 : ℝ)).2) ^ 2 =
        ((1 : ℝ)/2) ^ 2 := by norm_num
    rw [hsum, Real.sqrt_sq (by norm_num : (0 : ℝ) ≤ 1/2)]
    norm_num
  have heval := moveVirion_eval worldW worldH ((1 : ℚ)/2, (1 : ℚ)/2) c9Virion
    ((2 : ℝ), (1 : ℝ)/2) ((100 : ℝ), (0 : ℝ)) hbx hby hd1 hd1 hns
  refine ⟨h1, h2, ?_, ?_⟩
  · rw [heval]
  · rw [heval]
    norm_num [c9Virion]

/-- C9 (amended): after every motion step every particle position lies within
the inset world bounds [2, w-2] x [2, h-2]; at a violated low boundary the
wall code sets the velocity component on that axis to its absolute value and
at a violated high boundary to minus its absolute value — that is, it forces
the component to point away from the wall (a sign flip exactly when the
particle was moving toward the wall), before the per-tick random drift and the
speed clamp are applied to the velocity. -/
theorem c9_boundary_reflection :
    (∀ (vs : List Virion) (d : ℕ → ℚ × ℚ) (v : Virion),
      v ∈ moveVirions vs worldW worldH d →
      2 ≤ v.x ∧ v.x ≤ worldW - 2 ∧ 2 ≤ v.y ∧ v.y ≤ worldH - 2) ∧
    (∀ lo hi pos vel : ℝ, pos < lo → bounce1 lo hi pos vel = (lo, |vel|)) ∧
    (∀ lo hi pos vel : ℝ, lo ≤ hi → hi < pos →
      bounce1 lo hi pos vel = (hi, -|vel|)) := by
  refine ⟨?_, bounce1_low, bounce1_high⟩
  intro vs d v hv
  rcases mem_mapIdxFrom hv with ⟨i, a, -, rfl⟩
  have hwx : (2 : ℝ) ≤ worldW - 2 := by norm_num [worldW]
  have hwy : (2 : ℝ) ≤ worldH - 2 := by norm_num [worldH]
  refine ⟨?_, ?_, ?_, ?_⟩
  · rw [moveVirion_x]
    exact (bounce1_fst_bounds 2 (worldW - 2) _ _ hwx).1
  · rw [moveVirion_x]
    exact (bounce1_fst_bounds 2 (worldW - 2) _ _ hwx).2
  · rw [moveVirion_y]
    exact (bounce1_fst_bounds 2 (worldH - 2) _ _ hwy).1
  · rw [moveVirion_y]
    exact (bounce1_fst_bounds 2 (worldH - 2) _ _ hwy).2

/-- C9 witness: a moved particle's position lands inside the inset bounds,
and the two wall cases evaluate as stated at concrete inputs. -/
theorem c9_boundary_reflection_witness :
    (2 ≤ (moveVirion worldW worldH ((1 : ℚ)/2, (1 : ℚ)/2) c9Virion).x ∧
      (moveVirion worldW worldH ((1 : ℚ)/2, (1 : ℚ)/2) c9Virion).x ≤
        worldW - 2 ∧
      2 ≤ (moveVirion worldW worldH ((1 : ℚ)/2, (1 : ℚ)/2) c9Virion).y ∧
      (moveVirion worldW worldH ((1 : ℚ)/2, (1 : ℚ)/2) c9Virion).y ≤
        worldH - 2) ∧
    bounce1 0 5 (-1) 3 = (0, |(3 : ℝ)|) ∧
    bounce1 0 5 7 3 = (5, -|(3 : ℝ)|) := by
  refine ⟨?_, ?_, ?_⟩
  · have hmem : moveVirion worldW worldH ((1 : ℚ)/2, (1 : ℚ)/2) c9Virion ∈
        moveVirions [c9Virion] worldW worldH
          (fun _ => ((1 : ℚ)/2, (1 : ℚ)/2)) := by
      rw [moveVirions]
      exact List.mem_singleton.mpr rfl
    exact c9_boundary_reflection.1 [c9Virion] _ _ hmem
  · exact c9_boundary_reflection.2.1 0 5 (-1) 3 (by norm_num)
  · exact c9_boundary_reflection.2.2 0 5 7 3 (by norm_num) (by norm_num)

end Trojan
